import Mathlib

/-!
Shallow embedding of the LC-3 virtual machine in `src/lc3.c`.

The machine state bundles the two global arrays of the source (`memory`,
`reg`) with the interpreter-loop flag (`running`) and an explicit model of
the input/output collaborators (the `select`-based keyboard poll, the
`getchar` stream, and the character output).  C `uint16_t` cells are
modelled as `Nat` with an explicit `% 65536` at every store, which is
exactly the truncation a `uint16_t` assignment performs.

Parts of the source are placeholders (e.g. `{LD, 7}`, `{BAD OPCODE, 7}`)
or reference identifiers the file never defines (`MR_KBSR`, `MR_KBDR`);
those parts are modelled from the spec and carry a doc comment saying so.
-/

namespace LC3

/-- Register indices, from the source enum: R0..R7 are 0..7, then PC, COND. -/
def R_R0 : Nat := 0

/-- R7, the link register. -/
def R_R7 : Nat := 7

/-- Program counter index in the `reg` array. -/
def R_PC : Nat := 8

/-- Condition-flags index in the `reg` array. -/
def R_COND : Nat := 9

/-- Condition flag P, `1 << 0`. -/
def FL_POS : Nat := 1

/-- Condition flag Z, `1 << 1`. -/
def FL_ZRO : Nat := 2

/-- Condition flag N, `1 << 2`. -/
def FL_NEG : Nat := 4

/-- Modelled from the spec: the source reads and writes `MR_KBSR` without ever
defining it; spec section 3 fixes the keyboard-status address, conventionally
0xFE00. -/
def MR_KBSR : Nat := 0xFE00

/-- Modelled from the spec: the source reads and writes `MR_KBDR` without ever
defining it; spec section 3 fixes the keyboard-data address, conventionally
0xFE02. -/
def MR_KBDR : Nat := 0xFE02

/-- Length of the source's memory array: it is declared
`uint16_t memory[UINT16_MAX]` and `UINT16_MAX = 65535`, so the array has
65535 cells with valid indices 0 .. 65534 (the source's own comment says
65536). -/
def memoryArrayLength : Nat := 65535

/-- An address indexes a defined cell of the declared `memory` array. -/
def addrInBounds (a : Nat) : Prop := a < memoryArrayLength

/-- The machine state: the globals `memory` and `reg`, the loop flag
`running` of `main`, an `aborted` flag recording a fatal decode error, and
the external input/output collaborators: `polls k` is the result of the
k-th `check_key` call (`select` on stdin), `stdin k` the k-th character
`getchar` delivers, `output` the characters written so far. -/
structure Machine where
  mem : Nat → Nat
  reg : Nat → Nat
  running : Bool
  aborted : Bool
  polls : Nat → Bool
  ppos : Nat
  stdin : Nat → Nat
  spos : Nat
  output : List Nat

/-- Store `v` into register `r`; the `uint16_t` cell truncates the value. -/
def setReg (m : Machine) (r v : Nat) : Machine :=
  { m with reg := fun i => if i = r then v % 65536 else m.reg i }

/-- `mem_write(address, val)`: both parameters are `uint16_t`, so both are
truncated; the store is plain storage (source lines 145-148). -/
def mem_write (m : Machine) (address val : Nat) : Machine :=
  { m with mem := fun a => if a = address % 65536 then val % 65536 else m.mem a }

/-- `check_key()`: non-blocking `select` poll of stdin; modelled by the
poll oracle stream at the current position. -/
def check_key (m : Machine) : Bool :=
  m.polls m.ppos

/-- Consume one poll result. -/
def consumePoll (m : Machine) : Machine :=
  { m with ppos := m.ppos + 1 }

/-- `getchar()`: blocking read of the next stdin character; returns the
character and the state with the stream advanced. -/
def getchar (m : Machine) : Machine × Nat :=
  ({ m with spos := m.spos + 1 }, m.stdin m.spos)

/-- `mem_read(address)`: if the (truncated) address is the keyboard status
register, poll the keyboard first: on a pending key set KBSR to `1 << 15`
and store the key into KBDR; otherwise clear KBSR.  Then return the cell at
the address (source lines 150-164). -/
def mem_read (m : Machine) (address : Nat) : Machine × Nat :=
  let addr := address % 65536
  let m1 :=
    if addr = MR_KBSR then
      if check_key m then
        let m2 := mem_write (consumePoll m) MR_KBSR 32768
        let g := getchar m2
        mem_write g.1 MR_KBDR g.2
      else
        mem_write (consumePoll m) MR_KBSR 0
    else m
  (m1, m1.mem addr)

/-- `sign_extend(x, bit_count)` (source lines 70-76): if the top bit of the
`bit_count`-wide field is set, OR in `0xFFFF << bit_count`; the result is
truncated by the `uint16_t` variable it is stored into. -/
def sign_extend (x : Nat) (bit_count : Nat) : Nat :=
  if (x >>> (bit_count - 1)) &&& 1 = 1 then
    (x ||| (0xFFFF <<< bit_count)) % 65536
  else x

/-- `update_flags(r)` (source lines 85-99): set COND from the value of
register `r`. -/
def update_flags (m : Machine) (r : Nat) : Machine :=
  if m.reg r = 0 then
    setReg m R_COND FL_ZRO
  else if m.reg r >>> 15 ≠ 0 then
    setReg m R_COND FL_NEG
  else
    setReg m R_COND FL_POS

/-- The flag value `update_flags` computes for a stored 16-bit value. -/
def flagOf (v : Nat) : Nat :=
  if v = 0 then FL_ZRO else if v >>> 15 ≠ 0 then FL_NEG else FL_POS

/-- OP_ADD handler (source lines 230-251). -/
def op_add (instr : Nat) (m : Machine) : Machine :=
  let r0 := (instr >>> 9) &&& 7
  let r1 := (instr >>> 6) &&& 7
  let imm_flag := (instr >>> 5) &&& 1
  let m1 :=
    if imm_flag = 1 then
      setReg m r0 (m.reg r1 + sign_extend (instr &&& 0x1F) 5)
    else
      setReg m r0 (m.reg r1 + m.reg (instr &&& 7))
  update_flags m1 r0

/-- OP_AND handler (source lines 253-271; the source's `imm_5` is the
`imm5` just computed). -/
def op_and (instr : Nat) (m : Machine) : Machine :=
  let r0 := (instr >>> 9) &&& 7
  let r1 := (instr >>> 6) &&& 7
  let imm_flag := (instr >>> 5) &&& 1
  let m1 :=
    if imm_flag = 1 then
      setReg m r0 (m.reg r1 &&& sign_extend (instr &&& 0x1F) 5)
    else
      setReg m r0 (m.reg r1 &&& m.reg (instr &&& 7))
  update_flags m1 r0

/-- OP_NOT handler (source lines 273-282); C `~` on a `uint16_t` flips the
low 16 bits. -/
def op_not (instr : Nat) (m : Machine) : Machine :=
  let r0 := (instr >>> 9) &&& 7
  let r1 := (instr >>> 6) &&& 7
  update_flags (setReg m r0 (m.reg r1 ^^^ 65535)) r0

/-- OP_BR handler (source lines 284-294). -/
def op_br (instr : Nat) (m : Machine) : Machine :=
  let pc_offset := sign_extend (instr &&& 0x1FF) 9
  let cond_flag := (instr >>> 9) &&& 7
  if cond_flag &&& m.reg R_COND ≠ 0 then
    setReg m R_PC (m.reg R_PC + pc_offset)
  else m

/-- OP_JMP handler (source lines 296-302). -/
def op_jmp (instr : Nat) (m : Machine) : Machine :=
  let r1 := (instr >>> 6) &&& 7
  setReg m R_PC (m.reg r1)

/-- OP_JSR handler (source lines 304-321): R7 is written first, then the PC
is taken from the offset (long form) or from the base register as it stands
after the R7 write. -/
def op_jsr (instr : Nat) (m : Machine) : Machine :=
  let r1 := (instr >>> 6) &&& 7
  let long_pc_offset := sign_extend (instr &&& 0x7FF) 11
  let long_flag := (instr >>> 11) &&& 1
  let m1 := setReg m R_R7 (m.reg R_PC)
  if long_flag = 1 then
    setReg m1 R_PC (m1.reg R_PC + long_pc_offset)
  else
    setReg m1 R_PC (m1.reg r1)

/-- Modelled from the spec: the source leaves OP_LD as the placeholder
`{LD, 7}`; spec section 4.2: DR = Memory[PC + sign-extended offset9], read
through the memory-mapped path, then the flag update. -/
def op_ld (instr : Nat) (m : Machine) : Machine :=
  let r0 := (instr >>> 9) &&& 7
  let pc_offset := sign_extend (instr &&& 0x1FF) 9
  let rd := mem_read m (m.reg R_PC + pc_offset)
  update_flags (setReg rd.1 r0 rd.2) r0

/-- Modelled from the spec: the source leaves OP_LDI as the placeholder
`{LDI, 6}`; spec section 4.2: DR = Memory[Memory[PC + sign-extended
offset9]], then the flag update. -/
def op_ldi (instr : Nat) (m : Machine) : Machine :=
  let r0 := (instr >>> 9) &&& 7
  let pc_offset := sign_extend (instr &&& 0x1FF) 9
  let rd1 := mem_read m (m.reg R_PC + pc_offset)
  let rd2 := mem_read rd1.1 rd1.2
  update_flags (setReg rd2.1 r0 rd2.2) r0

/-- Modelled from the spec: the source leaves OP_LDR as the placeholder
`{LDR, 7}`; spec section 4.2: DR = Memory[base + sign-extended offset6],
then the flag update. -/
def op_ldr (instr : Nat) (m : Machine) : Machine :=
  let r0 := (instr >>> 9) &&& 7
  let r1 := (instr >>> 6) &&& 7
  let offset := sign_extend (instr &&& 0x3F) 6
  let rd := mem_read m (m.reg r1 + offset)
  update_flags (setReg rd.1 r0 rd.2) r0

/-- Modelled from the spec: the source leaves OP_LEA as the placeholder
`{LEA, 7}`; spec section 4.2: DR = PC + sign-extended offset9 (the address,
not the loaded value), then the flag update. -/
def op_lea (instr : Nat) (m : Machine) : Machine :=
  let r0 := (instr >>> 9) &&& 7
  let pc_offset := sign_extend (instr &&& 0x1FF) 9
  update_flags (setReg m r0 (m.reg R_PC + pc_offset)) r0

/-- Modelled from the spec: the source leaves OP_ST as the placeholder
`{ST, 7}`; spec section 4.2: Memory[PC + sign-extended offset9] = SR. -/
def op_st (instr : Nat) (m : Machine) : Machine :=
  let r0 := (instr >>> 9) &&& 7
  let pc_offset := sign_extend (instr &&& 0x1FF) 9
  mem_write m (m.reg R_PC + pc_offset) (m.reg r0)

/-- Modelled from the spec: the source leaves OP_STI as the placeholder
`{STI, 7}`; spec section 4.2: Memory[Memory[PC + sign-extended offset9]] =
SR, the inner cell read through the memory-mapped path. -/
def op_sti (instr : Nat) (m : Machine) : Machine :=
  let r0 := (instr >>> 9) &&& 7
  let pc_offset := sign_extend (instr &&& 0x1FF) 9
  let rd := mem_read m (m.reg R_PC + pc_offset)
  mem_write rd.1 rd.2 (rd.1.reg r0)

/-- Modelled from the spec: the source leaves OP_STR as the placeholder
`{STR, 7}`; spec section 4.2: Memory[base + sign-extended offset6] = SR. -/
def op_str (instr : Nat) (m : Machine) : Machine :=
  let r0 := (instr >>> 9) &&& 7
  let r1 := (instr >>> 6) &&& 7
  let offset := sign_extend (instr &&& 0x3F) 6
  mem_write m (m.reg r1 + offset) (m.reg r0)

/-- PUTS output loop, modelled from spec section 4.3: write the character
of each memory word starting at `addr` until a zero word; fuel bounds the
walk by the size of the address space. -/
def puts_loop : Nat → Nat → Machine → Machine
  | 0, _, m => m
  | fuel + 1, addr, m =>
    let c := m.mem (addr % 65536)
    if c = 0 then m
    else puts_loop fuel (addr + 1) { m with output := m.output ++ [c &&& 255] }

/-- PUTSP output loop, modelled from spec section 4.3: two packed
characters per word, low byte first, the high byte only if nonzero; stop
at a zero word. -/
def putsp_loop : Nat → Nat → Machine → Machine
  | 0, _, m => m
  | fuel + 1, addr, m =>
    let c := m.mem (addr % 65536)
    if c = 0 then m
    else
      let lowOut := m.output ++ [c &&& 255]
      let allOut := if c >>> 8 = 0 then lowOut else lowOut ++ [c >>> 8]
      putsp_loop fuel (addr + 1) { m with output := allOut }

/-- Modelled from the spec: the source leaves OP_TRAP as the placeholder
`{TRAP, 8}`; spec sections 4.2-4.3: save R7 = PC, then dispatch on the
8-bit vector; GETC/IN read a character into R0 (IN also echoes; its prompt
text is abstracted away), OUT/PUTS/PUTSP write characters, HALT stops the
loop, an unknown vector is a fatal decode error.  Per the spec's flag
invariant no trap touches the condition flags. -/
def op_trap (instr : Nat) (m : Machine) : Machine :=
  let m0 := setReg m R_R7 (m.reg R_PC)
  let vect := instr &&& 0xFF
  if vect = 0x20 then
    let g := getchar m0
    setReg g.1 R_R0 (g.2 &&& 255)
  else if vect = 0x21 then
    { m0 with output := m0.output ++ [m0.reg R_R0 &&& 255] }
  else if vect = 0x22 then
    puts_loop 65536 (m0.reg R_R0) m0
  else if vect = 0x23 then
    let g := getchar m0
    let m1 := { g.1 with output := g.1.output ++ [g.2 &&& 255] }
    setReg m1 R_R0 (g.2 &&& 255)
  else if vect = 0x24 then
    putsp_loop 65536 (m0.reg R_R0) m0
  else if vect = 0x25 then
    { m0 with running := false }
  else
    { m0 with running := false, aborted := true }

/-- The switch of the interpreter loop (source lines 228-351), dispatching
on the top 4 bits.  The OP_RES / OP_RTI / default arm is modelled from the
spec: the source leaves it as the placeholder `{BAD OPCODE, 7}`, and spec
section 7 makes a decode error fatal — the loop transitions to Halted and
the failure is reported (the `aborted` flag). -/
def execInstr (instr : Nat) (m : Machine) : Machine :=
  let op := instr >>> 12
  if op = 1 then op_add instr m
  else if op = 5 then op_and instr m
  else if op = 9 then op_not instr m
  else if op = 0 then op_br instr m
  else if op = 12 then op_jmp instr m
  else if op = 4 then op_jsr instr m
  else if op = 2 then op_ld instr m
  else if op = 10 then op_ldi instr m
  else if op = 6 then op_ldr instr m
  else if op = 14 then op_lea instr m
  else if op = 3 then op_st instr m
  else if op = 11 then op_sti instr m
  else if op = 7 then op_str instr m
  else if op = 15 then op_trap instr m
  else { m with running := false, aborted := true }

/-- The fetch of the loop: `uint16_t instr = mem_read(reg[R_PC]++)`
(source line 225) — read the word at PC, then increment PC with 16-bit
wraparound. -/
def fetch (m : Machine) : Machine × Nat :=
  let rd := mem_read m (m.reg R_PC)
  (setReg rd.1 R_PC (m.reg R_PC + 1), rd.2)

/-- One iteration of the `while (running)` interpreter loop: fetch, decode
and dispatch; a halted machine does not step. -/
def step (m : Machine) : Machine :=
  if m.running then
    let f := fetch m
    execInstr f.2 f.1
  else m

/-- A concrete machine for witnesses: zero memory and registers, running,
no pending input. -/
def initMachine : Machine :=
  { mem := fun _ => 0
    reg := fun _ => 0
    running := true
    aborted := false
    polls := fun _ => false
    ppos := 0
    stdin := fun _ => 0
    spos := 0
    output := [] }

/-- The mathematically correct signed widening of an n-bit two's-complement
value (stated from the spec's words, to compare with `sign_extend`). -/
def signedValue (x n : Nat) : Int :=
  if (x >>> (n - 1)) &&& 1 = 1 then (x : Int) - 2 ^ n else (x : Int)

/-- A 16-bit word read as a two's-complement integer. -/
def toInt16 (v : Nat) : Int :=
  if (v >>> 15) &&& 1 = 1 then (v : Int) - 65536 else (v : Int)

/-! ### Basic lemmas about the state operations -/

theorem setReg_reg (m : Machine) (r v i : Nat) :
    (setReg m r v).reg i = if i = r then v % 65536 else m.reg i := rfl

theorem setReg_reg_ne (m : Machine) (r v i : Nat) (h : i ≠ r) :
    (setReg m r v).reg i = m.reg i := by
  rw [setReg_reg, if_neg h]

theorem setReg_running (m : Machine) (r v : Nat) :
    (setReg m r v).running = m.running := rfl

theorem setReg_aborted (m : Machine) (r v : Nat) :
    (setReg m r v).aborted = m.aborted := rfl

theorem mem_write_reg (m : Machine) (a v : Nat) :
    (mem_write m a v).reg = m.reg := rfl

theorem mem_write_running (m : Machine) (a v : Nat) :
    (mem_write m a v).running = m.running := rfl

theorem mem_read_fst_reg (m : Machine) (a : Nat) :
    ((mem_read m a).1).reg = m.reg := by
  unfold mem_read
  dsimp only
  split
  · split <;> rfl
  · rfl

theorem mem_read_fst_running (m : Machine) (a : Nat) :
    ((mem_read m a).1).running = m.running := by
  unfold mem_read
  dsimp only
  split
  · split <;> rfl
  · rfl

theorem mem_read_fst_aborted (m : Machine) (a : Nat) :
    ((mem_read m a).1).aborted = m.aborted := by
  unfold mem_read
  dsimp only
  split
  · split <;> rfl
  · rfl

theorem fetch_fst_reg_pc (m : Machine) :
    ((fetch m).1).reg R_PC = (m.reg R_PC + 1) % 65536 := by
  unfold fetch
  dsimp only
  rw [setReg_reg, if_pos rfl]

theorem fetch_fst_reg_ne (m : Machine) (i : Nat) (h : i ≠ R_PC) :
    ((fetch m).1).reg i = m.reg i := by
  unfold fetch
  dsimp only
  rw [setReg_reg, if_neg h, mem_read_fst_reg]

theorem fetch_fst_running (m : Machine) :
    ((fetch m).1).running = m.running := by
  unfold fetch
  dsimp only
  rw [setReg_running, mem_read_fst_running]

theorem update_flags_eq (m : Machine) (r : Nat) :
    update_flags m r = setReg m R_COND (flagOf (m.reg r)) := by
  unfold update_flags flagOf
  split_ifs <;> rfl

theorem flagOf_lt (v : Nat) : flagOf v < 65536 := by
  unfold flagOf FL_POS FL_ZRO FL_NEG
  split_ifs <;> omega

theorem update_flags_reg_cond (m : Machine) (r : Nat) :
    (update_flags m r).reg R_COND = flagOf (m.reg r) := by
  rw [update_flags_eq, setReg_reg, if_pos rfl, Nat.mod_eq_of_lt (flagOf_lt _)]

theorem update_flags_reg_ne (m : Machine) (r i : Nat) (h : i ≠ R_COND) :
    (update_flags m r).reg i = m.reg i := by
  rw [update_flags_eq, setReg_reg, if_neg h]

theorem flagOf_cases (v : Nat) :
    flagOf v = FL_NEG ∨ flagOf v = FL_ZRO ∨ flagOf v = FL_POS := by
  unfold flagOf
  split_ifs <;> simp

theorem and7_le (x : Nat) : x &&& 7 ≤ 7 := Nat.and_le_right

theorem and7_ne_cond (x : Nat) : x &&& 7 ≠ R_COND := by
  have h := and7_le x
  unfold R_COND
  omega

theorem and7_ne_pc (x : Nat) : x &&& 7 ≠ R_PC := by
  have h := and7_le x
  unfold R_PC
  omega

theorem step_running_eq (m : Machine) (hrun : m.running = true) :
    step m = execInstr (fetch m).2 (fetch m).1 := by
  unfold step
  rw [hrun]
  rfl

theorem execInstr_op_add (instr : Nat) (m : Machine) (h : instr >>> 12 = 1) :
    execInstr instr m = op_add instr m := by
  unfold execInstr
  rw [h]
  rfl

theorem execInstr_op_and (instr : Nat) (m : Machine) (h : instr >>> 12 = 5) :
    execInstr instr m = op_and instr m := by
  unfold execInstr
  rw [h]
  rfl

theorem execInstr_op_not (instr : Nat) (m : Machine) (h : instr >>> 12 = 9) :
    execInstr instr m = op_not instr m := by
  unfold execInstr
  rw [h]
  rfl

theorem execInstr_op_br (instr : Nat) (m : Machine) (h : instr >>> 12 = 0) :
    execInstr instr m = op_br instr m := by
  unfold execInstr
  rw [h]
  rfl

theorem execInstr_op_jmp (instr : Nat) (m : Machine) (h : instr >>> 12 = 12) :
    execInstr instr m = op_jmp instr m := by
  unfold execInstr
  rw [h]
  rfl

theorem execInstr_op_jsr (instr : Nat) (m : Machine) (h : instr >>> 12 = 4) :
    execInstr instr m = op_jsr instr m := by
  unfold execInstr
  rw [h]
  rfl

theorem execInstr_op_ld (instr : Nat) (m : Machine) (h : instr >>> 12 = 2) :
    execInstr instr m = op_ld instr m := by
  unfold execInstr
  rw [h]
  rfl

theorem execInstr_op_ldi (instr : Nat) (m : Machine) (h : instr >>> 12 = 10) :
    execInstr instr m = op_ldi instr m := by
  unfold execInstr
  rw [h]
  rfl

theorem execInstr_op_ldr (instr : Nat) (m : Machine) (h : instr >>> 12 = 6) :
    execInstr instr m = op_ldr instr m := by
  unfold execInstr
  rw [h]
  rfl

theorem execInstr_op_lea (instr : Nat) (m : Machine) (h : instr >>> 12 = 14) :
    execInstr instr m = op_lea instr m := by
  unfold execInstr
  rw [h]
  rfl

theorem execInstr_op_st (instr : Nat) (m : Machine) (h : instr >>> 12 = 3) :
    execInstr instr m = op_st instr m := by
  unfold execInstr
  rw [h]
  rfl

theorem execInstr_op_sti (instr : Nat) (m : Machine) (h : instr >>> 12 = 11) :
    execInstr instr m = op_sti instr m := by
  unfold execInstr
  rw [h]
  rfl

theorem execInstr_op_str (instr : Nat) (m : Machine) (h : instr >>> 12 = 7) :
    execInstr instr m = op_str instr m := by
  unfold execInstr
  rw [h]
  rfl

theorem execInstr_op_trap (instr : Nat) (m : Machine) (h : instr >>> 12 = 15) :
    execInstr instr m = op_trap instr m := by
  unfold execInstr
  rw [h]
  rfl

theorem execInstr_op_rti (instr : Nat) (m : Machine) (h : instr >>> 12 = 8) :
    execInstr instr m = { m with running := false, aborted := true } := by
  unfold execInstr
  rw [h]
  rfl

theorem execInstr_op_res (instr : Nat) (m : Machine) (h : instr >>> 12 = 13) :
    execInstr instr m = { m with running := false, aborted := true } := by
  unfold execInstr
  rw [h]
  rfl

/-! ### Claims -/

/-- C1: the spec requires 65536 memory cells, one for every address 0x0000
through 0xFFFF, and the source's own comment announces 65536; but the
declared array `uint16_t memory[UINT16_MAX]` has only 65535 cells, so
address 0xFFFF does not index a defined cell — `mem_read(0xFFFF)` and
`mem_write(0xFFFF, v)` are out-of-bounds accesses. -/
theorem memory_last_address_oob :
    memoryArrayLength = 65535 ∧ ¬ addrInBounds 0xFFFF := by
  refine ⟨rfl, ?_⟩
  unfold addrInBounds memoryArrayLength
  omega

/-- C2: from any Running state whose fetched instruction decodes to the
RES or RTI opcode, one step of the interpreter loop transitions to Halted
with the fatal-error flag set; the loop never continues past it. -/
theorem res_rti_fatal_halt (m : Machine) (hrun : m.running = true)
    (hop : (fetch m).2 >>> 12 = 8 ∨ (fetch m).2 >>> 12 = 13) :
    (step m).running = false ∧ (step m).aborted = true := by
  rw [step_running_eq m hrun]
  rcases hop with h | h
  · rw [execInstr_op_rti _ _ h]
    exact ⟨rfl, rfl⟩
  · rw [execInstr_op_res _ _ h]
    exact ⟨rfl, rfl⟩

/-- Machine whose every memory cell holds 0x8000, an RTI instruction. -/
def rtiMachine : Machine :=
  { initMachine with mem := fun _ => 0x8000 }

/-- Witness for C2: the RTI machine is running, its fetched opcode is 8,
and stepping it halts with the fatal-error flag. -/
theorem res_rti_fatal_halt_witness :
    (rtiMachine.running = true ∧ (fetch rtiMachine).2 >>> 12 = 8) ∧
    ((step rtiMachine).running = false ∧ (step rtiMachine).aborted = true) :=
  ⟨⟨rfl, rfl⟩, res_rti_fatal_halt rtiMachine rfl (Or.inl rfl)⟩

theorem sign_extend_ext (n x : Nat) (h1 : 1 ≤ n) (h2 : n ≤ 15)
    (hx : x < 2 ^ n) :
    toInt16 (sign_extend x n) = signedValue x n := by
  have hq2 : (2:Nat) ^ (n - 1) * 2 = 2 ^ n := by
    rw [← pow_succ]
    congr 1
    omega
  have hqle : (2:Nat) ^ (n - 1) ≤ 16384 := by
    calc (2:Nat) ^ (n - 1) ≤ 2 ^ 14 := Nat.pow_le_pow_right (by omega) (by omega)
    _ = 16384 := by norm_num
  have hple : (2:Nat) ^ n ≤ 32768 := by
    calc (2:Nat) ^ n ≤ 2 ^ 15 := Nat.pow_le_pow_right (by omega) h2
    _ = 32768 := by norm_num
  unfold sign_extend signedValue toInt16
  by_cases hbit : (x >>> (n - 1)) &&& 1 = 1
  · rw [if_pos hbit, if_pos hbit]
    have hxq : 2 ^ (n - 1) ≤ x := by
      by_contra hlt
      push_neg at hlt
      rw [Nat.shiftRight_eq_div_pow, Nat.div_eq_of_lt hlt] at hbit
      simp at hbit
    have hlor : x ||| (0xFFFF <<< n) = 2 ^ n * 0xFFFF + x := by
      rw [Nat.lor_comm, Nat.shiftLeft_eq, Nat.mul_comm, ← Nat.mul_add_lt_is_or hx]
    rw [hlor]
    have hmod : (2 ^ n * 0xFFFF + x) % 65536 = 65536 - 2 ^ n + x := by
      omega
    rw [hmod]
    have hhigh : ((65536 - 2 ^ n + x) >>> 15) &&& 1 = 1 := by
      rw [Nat.shiftRight_eq_div_pow]
      have hdiv : (65536 - 2 ^ n + x) / 2 ^ 15 = 1 := by
        norm_num
        omega
      rw [hdiv]
      rfl
    rw [if_pos hhigh]
    have hcast : ((65536 - 2 ^ n + x : Nat) : Int) = 65536 - (2 ^ n : Nat) + (x : Int) := by
      omega
    rw [hcast]
    push_cast
    ring
  · rw [if_neg hbit, if_neg hbit]
    have hlow : ((x >>> 15) &&& 1) ≠ 1 := by
      rw [Nat.shiftRight_eq_div_pow]
      have hdiv : x / 2 ^ 15 = 0 := Nat.div_eq_of_lt (by omega)
      rw [hdiv]
      simp
    rw [if_neg hlow]

/-- C4: for each field width used by the ISA and every input fitting in
that width, the 16-bit result of `sign_extend`, read as two's complement,
is the mathematically correct signed widening of the n-bit input. -/
theorem sign_extend_correct (n x : Nat)
    (hn : n = 5 ∨ n = 6 ∨ n = 9 ∨ n = 11) (hx : x < 2 ^ n) :
    toInt16 (sign_extend x n) = signedValue x n := by
  rcases hn with h | h | h | h <;> subst h <;>
    exact sign_extend_ext _ _ (by omega) (by omega) hx

/-- Witness for C4: width 5 at the negative input 16 (= -16). -/
theorem sign_extend_correct_witness :
    (16 < 2 ^ 5 ∧ toInt16 (sign_extend 16 5) = signedValue 16 5) :=
  ⟨by decide, sign_extend_correct 5 16 (Or.inl rfl) (by decide)⟩

/-- What one call of `mem_read` does, per the claim: a read of the
keyboard-status address polls first — on a pending character the status
cell becomes `1 <<< 15` and the character lands in the keyboard-data cell
before the status value is returned; on no pending character the status
cell is cleared and 0 is returned; a read of any other address returns the
stored cell and mutates nothing. -/
def memReadContract (m : Machine) (a : Nat) : Prop :=
  (check_key m = true →
    (mem_read m MR_KBSR).2 = 32768 ∧
    ((mem_read m MR_KBSR).1).mem MR_KBSR = 32768 ∧
    ((mem_read m MR_KBSR).1).mem MR_KBDR = m.stdin m.spos % 65536) ∧
  (check_key m = false →
    (mem_read m MR_KBSR).2 = 0 ∧
    ((mem_read m MR_KBSR).1).mem MR_KBSR = 0 ∧
    ∀ b, b ≠ MR_KBSR → ((mem_read m MR_KBSR).1).mem b = m.mem b) ∧
  (a ≠ MR_KBSR → mem_read m a = (m, m.mem a))

/-- C3: `mem_read` obeys the keyboard-device contract for every memory
state, every input-collaborator state and every in-range address. -/
theorem mem_read_keyboard (m : Machine) (a : Nat) (ha : a < 65536) :
    memReadContract m a := by
  have hm : MR_KBSR % 65536 = MR_KBSR := by
    unfold MR_KBSR
    norm_num
  unfold memReadContract
  refine ⟨?_, ?_, ?_⟩
  · intro hk
    simp [mem_read, hm, hk, mem_write, getchar, consumePoll, MR_KBSR, MR_KBDR]
  · intro hk
    refine ⟨?_, ?_, ?_⟩
    · simp [mem_read, hm, hk, mem_write, consumePoll, MR_KBSR]
    · simp [mem_read, hm, hk, mem_write, consumePoll, MR_KBSR]
    · intro b hb
      simp [mem_read, hm, hk, mem_write, consumePoll, hb]
  · intro hne
    simp only [mem_read, Nat.mod_eq_of_lt ha]
    rw [if_neg hne]

/-- Machine for the C3 witness: a character (65) is pending. -/
def keyMachine : Machine :=
  { initMachine with polls := fun _ => true, stdin := fun _ => 65 }

/-- Witness for C3: the contract evaluated on `keyMachine` at address 0. -/
theorem mem_read_keyboard_witness :
    (0 : Nat) < 65536 ∧ memReadContract keyMachine 0 :=
  ⟨by decide, mem_read_keyboard keyMachine 0 (by decide)⟩

/-- The flag register holds exactly the flag of the value in register `dr`,
and that flag is one of the three legal values. -/
def flagsConsistent (m : Machine) (dr : Nat) : Prop :=
  m.reg R_COND = flagOf (m.reg dr) ∧
  (m.reg R_COND = FL_NEG ∨ m.reg R_COND = FL_ZRO ∨ m.reg R_COND = FL_POS)

theorem update_flags_consistent (m : Machine) (r : Nat) (hr : r ≠ R_COND) :
    flagsConsistent (update_flags m r) r := by
  constructor
  · rw [update_flags_reg_cond, update_flags_reg_ne _ _ _ hr]
  · rw [update_flags_reg_cond]
    exact flagOf_cases _

theorem op_br_reg_cond (i : Nat) (m : Machine) :
    (op_br i m).reg R_COND = m.reg R_COND := by
  unfold op_br
  dsimp only
  split
  · rw [setReg_reg_ne]
    decide
  · rfl

theorem op_jmp_reg_cond (i : Nat) (m : Machine) :
    (op_jmp i m).reg R_COND = m.reg R_COND := by
  unfold op_jmp
  rw [setReg_reg_ne]
  decide

theorem op_jsr_reg_cond (i : Nat) (m : Machine) :
    (op_jsr i m).reg R_COND = m.reg R_COND := by
  unfold op_jsr
  dsimp only
  split <;>
    · rw [setReg_reg_ne _ _ _ _ (by decide), setReg_reg_ne _ _ _ _ (by decide)]

theorem op_st_reg_cond (i : Nat) (m : Machine) :
    (op_st i m).reg R_COND = m.reg R_COND := by
  unfold op_st
  rw [mem_write_reg]

theorem op_sti_reg_cond (i : Nat) (m : Machine) :
    (op_sti i m).reg R_COND = m.reg R_COND := by
  unfold op_sti
  rw [mem_write_reg, mem_read_fst_reg]

theorem op_str_reg_cond (i : Nat) (m : Machine) :
    (op_str i m).reg R_COND = m.reg R_COND := by
  unfold op_str
  rw [mem_write_reg]

theorem puts_loop_reg (f : Nat) : ∀ (a : Nat) (m : Machine),
    (puts_loop f a m).reg = m.reg := by
  induction f with
  | zero => intro a m; rfl
  | succ n ih =>
    intro a m
    unfold puts_loop
    dsimp only
    split
    · rfl
    · rw [ih]

theorem putsp_loop_reg (f : Nat) : ∀ (a : Nat) (m : Machine),
    (putsp_loop f a m).reg = m.reg := by
  induction f with
  | zero => intro a m; rfl
  | succ n ih =>
    intro a m
    unfold putsp_loop
    dsimp only
    split
    · rfl
    · rw [ih]

theorem op_trap_reg_cond (i : Nat) (m : Machine) :
    (op_trap i m).reg R_COND = m.reg R_COND := by
  unfold op_trap
  dsimp only
  split_ifs <;>
    simp [setReg_reg, getchar, puts_loop_reg, putsp_loop_reg, R_COND, R_R0, R_R7]

/-- C5: after any destination-writing opcode (ADD, AND, NOT, LD, LDI, LDR,
LEA), the condition-flags register holds exactly one of Negative, Zero,
Positive, and it is the flag of the 16-bit value just stored in the
destination register. -/
theorem dest_writer_flags (m : Machine) (hrun : m.running = true)
    (hop : (fetch m).2 >>> 12 = 1 ∨ (fetch m).2 >>> 12 = 5 ∨
      (fetch m).2 >>> 12 = 9 ∨ (fetch m).2 >>> 12 = 2 ∨
      (fetch m).2 >>> 12 = 10 ∨ (fetch m).2 >>> 12 = 6 ∨
      (fetch m).2 >>> 12 = 14) :
    flagsConsistent (step m) (((fetch m).2 >>> 9) &&& 7) := by
  rw [step_running_eq m hrun]
  rcases hop with h | h | h | h | h | h | h
  · rw [execInstr_op_add _ _ h]
    exact update_flags_consistent _ _ (and7_ne_cond _)
  · rw [execInstr_op_and _ _ h]
    exact update_flags_consistent _ _ (and7_ne_cond _)
  · rw [execInstr_op_not _ _ h]
    exact update_flags_consistent _ _ (and7_ne_cond _)
  · rw [execInstr_op_ld _ _ h]
    exact update_flags_consistent _ _ (and7_ne_cond _)
  · rw [execInstr_op_ldi _ _ h]
    exact update_flags_consistent _ _ (and7_ne_cond _)
  · rw [execInstr_op_ldr _ _ h]
    exact update_flags_consistent _ _ (and7_ne_cond _)
  · rw [execInstr_op_lea _ _ h]
    exact update_flags_consistent _ _ (and7_ne_cond _)

/-- Machine for the C5 witness: every cell holds 0x1065, `ADD R0, R1, #5`. -/
def addMachine : Machine :=
  { initMachine with mem := fun _ => 0x1065 }

/-- Witness for C5: one step of the ADD machine leaves consistent flags. -/
theorem dest_writer_flags_witness :
    (addMachine.running = true ∧ (fetch addMachine).2 >>> 12 = 1) ∧
    flagsConsistent (step addMachine) (((fetch addMachine).2 >>> 9) &&& 7) :=
  ⟨⟨rfl, rfl⟩, dest_writer_flags addMachine rfl (Or.inl rfl)⟩

/-- C6: opcodes that define no destination register (BR, ST, JSR/JSRR,
STR, STI, JMP, TRAP) leave the condition-flags register unchanged. -/
theorem non_writer_flags_unchanged (m : Machine) (hrun : m.running = true)
    (hop : (fetch m).2 >>> 12 = 0 ∨ (fetch m).2 >>> 12 = 3 ∨
      (fetch m).2 >>> 12 = 4 ∨ (fetch m).2 >>> 12 = 7 ∨
      (fetch m).2 >>> 12 = 11 ∨ (fetch m).2 >>> 12 = 12 ∨
      (fetch m).2 >>> 12 = 15) :
    (step m).reg R_COND = m.reg R_COND := by
  have hf : ((fetch m).1).reg R_COND = m.reg R_COND :=
    fetch_fst_reg_ne m R_COND (by decide)
  rw [step_running_eq m hrun]
  rcases hop with h | h | h | h | h | h | h
  · rw [execInstr_op_br _ _ h, op_br_reg_cond, hf]
  · rw [execInstr_op_st _ _ h, op_st_reg_cond, hf]
  · rw [execInstr_op_jsr _ _ h, op_jsr_reg_cond, hf]
  · rw [execInstr_op_str _ _ h, op_str_reg_cond, hf]
  · rw [execInstr_op_sti _ _ h, op_sti_reg_cond, hf]
  · rw [execInstr_op_jmp _ _ h, op_jmp_reg_cond, hf]
  · rw [execInstr_op_trap _ _ h, op_trap_reg_cond, hf]

/-- Machine for the C6 witness: every cell holds 0xC1C0, `JMP R7`. -/
def jmpMachine : Machine :=
  { initMachine with mem := fun _ => 0xC1C0 }

/-- Witness for C6: a JMP step leaves the condition flags unchanged. -/
theorem non_writer_flags_unchanged_witness :
    (jmpMachine.running = true ∧ (fetch jmpMachine).2 >>> 12 = 12) ∧
    (step jmpMachine).reg R_COND = jmpMachine.reg R_COND :=
  ⟨⟨rfl, rfl⟩,
    non_writer_flags_unchanged jmpMachine rfl
      (Or.inr (Or.inr (Or.inr (Or.inr (Or.inr (Or.inl rfl))))))⟩

theorem sign_extend_lt (x n : Nat) (hx : x < 65536) :
    sign_extend x n < 65536 := by
  unfold sign_extend
  split
  · exact Nat.mod_lt _ (by norm_num)
  · exact hx

/-- C7: ADD (and likewise AND) in immediate mode matches the register mode
run from a state where the second source register is pre-loaded with the
sign-extended immediate: same destination value, same flags.  `i1` is the
immediate-mode instruction with 5-bit field `v`, `i2` the register-mode
instruction naming source `sr2` distinct from `sr1`. -/
theorem addand_imm_reg_equiv (m : Machine) (opc i1 i2 dr sr1 sr2 v : Nat)
    (hopc : opc = 1 ∨ opc = 5)
    (h1 : i1 >>> 12 = opc) (h2 : i2 >>> 12 = opc)
    (hd1 : (i1 >>> 9) &&& 7 = dr) (hd2 : (i2 >>> 9) &&& 7 = dr)
    (hs1 : (i1 >>> 6) &&& 7 = sr1) (hs2 : (i2 >>> 6) &&& 7 = sr1)
    (hm1 : (i1 >>> 5) &&& 1 = 1) (hm2 : (i2 >>> 5) &&& 1 = 0)
    (hv : i1 &&& 31 = v) (hr2 : i2 &&& 7 = sr2)
    (hne : sr2 ≠ sr1) :
    (execInstr i1 m).reg dr =
      (execInstr i2 (setReg m sr2 (sign_extend v 5))).reg dr ∧
    (execInstr i1 m).reg R_COND =
      (execInstr i2 (setReg m sr2 (sign_extend v 5))).reg R_COND := by
  have hdrC : dr ≠ R_COND := hd1 ▸ and7_ne_cond _
  have hvle : v ≤ 31 := by
    rw [← hv]
    exact Nat.and_le_right
  have hw : sign_extend v 5 % 65536 = sign_extend v 5 :=
    Nat.mod_eq_of_lt (sign_extend_lt v 5 (by omega))
  have hBreg1 : (setReg m sr2 (sign_extend v 5)).reg sr1 = m.reg sr1 :=
    setReg_reg_ne _ _ _ _ (Ne.symm hne)
  have hBreg2 : (setReg m sr2 (sign_extend v 5)).reg sr2 = sign_extend v 5 := by
    rw [setReg_reg, if_pos rfl, hw]
  rcases hopc with ho | ho <;> subst ho
  · have hA : execInstr i1 m =
        update_flags (setReg m dr (m.reg sr1 + sign_extend v 5)) dr := by
      rw [execInstr_op_add _ _ h1]
      unfold op_add
      rw [hd1, hs1, hm1, hv]
      dsimp only
      rw [if_pos rfl]
    have hB : execInstr i2 (setReg m sr2 (sign_extend v 5)) =
        update_flags
          (setReg (setReg m sr2 (sign_extend v 5)) dr
            (m.reg sr1 + sign_extend v 5)) dr := by
      rw [execInstr_op_add _ _ h2]
      unfold op_add
      rw [hd2, hs2, hm2, hr2]
      dsimp only
      rw [if_neg (by decide), hBreg1, hBreg2]
    rw [hA, hB]
    constructor
    · rw [update_flags_reg_ne _ _ _ hdrC, update_flags_reg_ne _ _ _ hdrC,
        setReg_reg, if_pos rfl, setReg_reg, if_pos rfl]
    · rw [update_flags_reg_cond, update_flags_reg_cond,
        setReg_reg, if_pos rfl, setReg_reg, if_pos rfl]
  · have hA : execInstr i1 m =
        update_flags (setReg m dr (m.reg sr1 &&& sign_extend v 5)) dr := by
      rw [execInstr_op_and _ _ h1]
      unfold op_and
      rw [hd1, hs1, hm1, hv]
      dsimp only
      rw [if_pos rfl]
    have hB : execInstr i2 (setReg m sr2 (sign_extend v 5)) =
        update_flags
          (setReg (setReg m sr2 (sign_extend v 5)) dr
            (m.reg sr1 &&& sign_extend v 5)) dr := by
      rw [execInstr_op_and _ _ h2]
      unfold op_and
      rw [hd2, hs2, hm2, hr2]
      dsimp only
      rw [if_neg (by decide), hBreg1, hBreg2]
    rw [hA, hB]
    constructor
    · rw [update_flags_reg_ne _ _ _ hdrC, update_flags_reg_ne _ _ _ hdrC,
        setReg_reg, if_pos rfl, setReg_reg, if_pos rfl]
    · rw [update_flags_reg_cond, update_flags_reg_cond,
        setReg_reg, if_pos rfl, setReg_reg, if_pos rfl]

/-- Witness for C7: `ADD R0, R1, #5` (0x1065) against `ADD R0, R1, R2`
(0x1042) with R2 pre-loaded with the sign-extended 5. -/
theorem addand_imm_reg_equiv_witness :
    ((0x1065 : Nat) >>> 12 = 1 ∧ (2 : Nat) ≠ 1) ∧
    ((execInstr 0x1065 initMachine).reg 0 =
      (execInstr 0x1042 (setReg initMachine 2 (sign_extend 5 5))).reg 0 ∧
     (execInstr 0x1065 initMachine).reg R_COND =
      (execInstr 0x1042 (setReg initMachine 2 (sign_extend 5 5))).reg R_COND) :=
  ⟨⟨rfl, by decide⟩,
    addand_imm_reg_equiv initMachine 1 0x1065 0x1042 0 1 2 5
      (Or.inl rfl) rfl rfl rfl rfl rfl rfl rfl rfl rfl rfl (by decide)⟩

/-- C8: a BR instruction adds the sign-extended 9-bit offset to the
post-fetch PC exactly when the instruction's condition mask ANDed with the
current flags is nonzero; otherwise the PC stays at the post-fetch value,
which is the incremented PC. -/
theorem br_pc_update (m : Machine) (hrun : m.running = true)
    (hop : (fetch m).2 >>> 12 = 0) :
    ((fetch m).1).reg R_PC = (m.reg R_PC + 1) % 65536 ∧
    (step m).reg R_PC =
      (if (((fetch m).2 >>> 9) &&& 7) &&& m.reg R_COND ≠ 0 then
        (((fetch m).1).reg R_PC + sign_extend ((fetch m).2 &&& 0x1FF) 9) % 65536
      else ((fetch m).1).reg R_PC) := by
  refine ⟨fetch_fst_reg_pc m, ?_⟩
  have hc : ((fetch m).1).reg R_COND = m.reg R_COND :=
    fetch_fst_reg_ne m R_COND (by decide)
  rw [step_running_eq m hrun, execInstr_op_br _ _ hop]
  unfold op_br
  dsimp only
  rw [hc]
  split
  · rw [setReg_reg, if_pos rfl]
  · rfl

/-- Machine for the C8 witness: every cell holds 0x0E02, `BR nzp, #2`, and
the flags register holds Zero. -/
def brMachine : Machine :=
  { initMachine with
    mem := fun _ => 0x0E02
    reg := fun i => if i = 9 then 2 else 0 }

/-- Witness for C8: the branch with mask nzp is taken from flags Zero. -/
theorem br_pc_update_witness :
    (brMachine.running = true ∧ (fetch brMachine).2 >>> 12 = 0) ∧
    (((fetch brMachine).1).reg R_PC = (brMachine.reg R_PC + 1) % 65536 ∧
    (step brMachine).reg R_PC =
      (if (((fetch brMachine).2 >>> 9) &&& 7) &&& brMachine.reg R_COND ≠ 0 then
        (((fetch brMachine).1).reg R_PC +
          sign_extend ((fetch brMachine).2 &&& 0x1FF) 9) % 65536
      else ((fetch brMachine).1).reg R_PC)) :=
  ⟨⟨rfl, rfl⟩, br_pc_update brMachine rfl rfl⟩

/-- C9: a long-form JSR executed at address A leaves the return address
A+1 in R7, and a later JMP through R7 (from any state whose R7 still holds
that return address) sets the PC back to A+1, the instruction after the
JSR. -/
theorem jsr_ret_pair (m m2 : Machine) (A : Nat)
    (hrun : m.running = true) (hpc : m.reg R_PC = A)
    (hop : (fetch m).2 >>> 12 = 4) (hlong : ((fetch m).2 >>> 11) &&& 1 = 1)
    (hrun2 : m2.running = true)
    (hr7 : m2.reg R_R7 = (A + 1) % 65536)
    (hop2 : (fetch m2).2 >>> 12 = 12)
    (hbase : ((fetch m2).2 >>> 6) &&& 7 = 7) :
    (step m).reg R_R7 = (A + 1) % 65536 ∧
    (step m2).reg R_PC = (A + 1) % 65536 := by
  constructor
  · rw [step_running_eq m hrun, execInstr_op_jsr _ _ hop]
    unfold op_jsr
    dsimp only
    rw [hlong, if_pos rfl]
    rw [setReg_reg_ne _ _ _ _ (by decide), setReg_reg, if_pos rfl,
      fetch_fst_reg_pc, hpc]
    exact Nat.mod_mod_of_dvd _ dvd_rfl
  · rw [step_running_eq m2 hrun2, execInstr_op_jmp _ _ hop2]
    unfold op_jmp
    dsimp only
    rw [hbase, setReg_reg, if_pos rfl]
    have h7 : ((fetch m2).1).reg 7 = m2.reg 7 :=
      fetch_fst_reg_ne m2 7 (by decide)
    rw [h7]
    have h7v : m2.reg 7 = (A + 1) % 65536 := hr7
    rw [h7v]
    exact Nat.mod_mod_of_dvd _ dvd_rfl

/-- Machine for the C9 JSR half: every cell holds 0x4802, `JSR #2`. -/
def jsrMachine : Machine :=
  { initMachine with mem := fun _ => 0x4802 }

/-- Machine for the C9 JMP half: every cell holds 0xC1C0, `JMP R7`, and R7
holds the return address 1. -/
def retMachine : Machine :=
  { initMachine with
    mem := fun _ => 0xC1C0
    reg := fun i => if i = 7 then 1 else 0 }

/-- Witness for C9: JSR at address 0 leaves 1 in R7, and JMP R7 with R7 = 1
puts the PC at 1. -/
theorem jsr_ret_pair_witness :
    (jsrMachine.reg R_PC = 0 ∧ retMachine.reg R_R7 = (0 + 1) % 65536) ∧
    ((step jsrMachine).reg R_R7 = (0 + 1) % 65536 ∧
     (step retMachine).reg R_PC = (0 + 1) % 65536) :=
  ⟨⟨rfl, rfl⟩, jsr_ret_pair jsrMachine retMachine 0 rfl rfl rfl rfl rfl rfl rfl rfl⟩

/-- C10: a JSRR whose base register is R7 first stores the return address
(the post-fetch PC) in R7 and only then loads the PC from R7, so both PC
and R7 end at the address after the JSRR; the prior contents of R7 are
gone. -/
theorem jsrr_base_r7 (m : Machine) (hrun : m.running = true)
    (hop : (fetch m).2 >>> 12 = 4) (hlong : ((fetch m).2 >>> 11) &&& 1 = 0)
    (hbase : ((fetch m).2 >>> 6) &&& 7 = 7) :
    (step m).reg R_PC = (m.reg R_PC + 1) % 65536 ∧
    (step m).reg R_R7 = (m.reg R_PC + 1) % 65536 := by
  rw [step_running_eq m hrun, execInstr_op_jsr _ _ hop]
  unfold op_jsr
  dsimp only
  rw [hlong, hbase, if_neg (by decide)]
  constructor
  · rw [setReg_reg, if_pos rfl, setReg_reg, if_pos (by decide),
      fetch_fst_reg_pc]
    rw [Nat.mod_mod_of_dvd _ dvd_rfl, Nat.mod_mod_of_dvd _ dvd_rfl]
  · rw [setReg_reg_ne _ _ _ _ (by decide), setReg_reg, if_pos rfl,
      fetch_fst_reg_pc]
    exact Nat.mod_mod_of_dvd _ dvd_rfl

/-- Machine for the C10 witness: every cell holds 0x41C0, `JSRR R7`, and
R7 initially holds 0x1234. -/
def jsrrMachine : Machine :=
  { initMachine with
    mem := fun _ => 0x41C0
    reg := fun i => if i = 7 then 0x1234 else 0 }

/-- Witness for C10: the JSRR through R7 falls through to the next
instruction instead of jumping to 0x1234. -/
theorem jsrr_base_r7_witness :
    (jsrrMachine.running = true ∧
      ((fetch jsrrMachine).2 >>> 6) &&& 7 = 7) ∧
    ((step jsrrMachine).reg R_PC = (jsrrMachine.reg R_PC + 1) % 65536 ∧
     (step jsrrMachine).reg R_R7 = (jsrrMachine.reg R_PC + 1) % 65536) :=
  ⟨⟨rfl, rfl⟩, jsrr_base_r7 jsrrMachine rfl rfl rfl rfl⟩

end LC3
